import Mathlib

/-!
Verification of the Jokes API catalog engine (`src/jokes_api_2.py`).

The SQLite-backed state (tables `jokes`, `categories`, `favorites`) is
embedded as lists of records inside a `DB` structure.  Real-valued rating
arithmetic is modelled exactly over `ℚ`; SQL `UPDATE ... WHERE id = ?`
becomes a `List.map` touching exactly the matching rows; `SELECT` row
retrieval order is the insertion order of the list, and `ORDER BY` is
modelled by `List.insertionSort` on the sort key.  Mutating endpoints
return the (possibly unchanged) database together with an
`Except ApiError` result; the error branches return the input database
verbatim, mirroring the Python handlers that close the connection without
committing anything on those paths.
-/

namespace JokesApi

/-- A row of the `jokes` table (`CREATE TABLE jokes`, `jokes_api_2.py`).
Timestamps are abstracted as naturals. -/
structure Joke where
  id : Nat
  setup : String
  punchline : String
  category : String
  rating : ℚ
  votes : Nat
  created_at : Nat
  updated_at : Nat
deriving Repr, DecidableEq

/-- A row of the `categories` table. -/
structure Category where
  id : Nat
  name : String
  description : String
deriving Repr, DecidableEq

/-- A row of the `favorites` table; `user_ip` is the client identity. -/
structure Favorite where
  id : Nat
  joke_id : Nat
  user_ip : String
  created_at : Nat
deriving Repr, DecidableEq

/-- The whole SQLite database plus the autoincrement counters and the
current value of `CURRENT_TIMESTAMP`. -/
structure DB where
  jokes : List Joke
  categories : List Category
  favorites : List Favorite
  nextJokeId : Nat
  nextFavId : Nat
  now : Nat
deriving Repr, DecidableEq

/-- Error taxonomy of the handlers: HTTP 400 and 404. -/
inductive ApiError where
  | invalidInput
  | notFound
deriving Repr, DecidableEq

/-- `POST /jokes/<id>/rate` (`rate_joke`).  `rating = none` models a
missing or non-numeric JSON `rating` field (both 400 in the source).
The `UPDATE jokes SET rating = ?, votes = ? WHERE id = ?` statement sets
the two columns on every row whose `id` matches, keeping the other
columns; the returned record is the re-selected updated row. -/
def rate_joke (db : DB) (joke_id : Nat) (rating : Option ℚ) :
    DB × Except ApiError Joke :=
  match rating with
  | none => (db, .error .invalidInput)
  | some r =>
    if r < 1 ∨ 5 < r then (db, .error .invalidInput)
    else
      match db.jokes.find? (fun j => j.id == joke_id) with
      | none => (db, .error .notFound)
      | some joke =>
        let new_votes := joke.votes + 1
        let new_rating := (joke.rating * (joke.votes : ℚ) + r) / (new_votes : ℚ)
        ({ db with
            jokes := db.jokes.map (fun x =>
              if x.id == joke_id then
                { x with rating := new_rating, votes := new_votes }
              else x) },
         .ok { joke with rating := new_rating, votes := new_votes })

/-- Iterated rating: the database state after submitting each rating in
`rs`, in order, through `rate_joke`. -/
def rateMany : DB → Nat → List ℚ → DB
  | db, _, [] => db
  | db, joke_id, r :: rs => rateMany (rate_joke db joke_id (some r)).1 joke_id rs

/-- `POST /jokes` (`add_joke`).  `none` for `setup`/`punchline` models a
missing JSON field (400); `category = none` takes the `'general'`
default.  The insert happens only after the category-existence check. -/
def add_joke (db : DB) (setup punchline category : Option String) :
    DB × Except ApiError Joke :=
  match setup, punchline with
  | some s, some p =>
    let cat := category.getD "general"
    match db.categories.find? (fun c => c.name == cat) with
    | none => (db, .error .invalidInput)
    | some _ =>
      let j : Joke :=
        { id := db.nextJokeId, setup := s, punchline := p, category := cat,
          rating := 0, votes := 0, created_at := db.now, updated_at := db.now }
      ({ db with jokes := db.jokes ++ [j], nextJokeId := db.nextJokeId + 1 }, .ok j)
  | _, _ => (db, .error .invalidInput)

/-- `DELETE /jokes/<id>` (`delete_joke`): existence check, then
`DELETE FROM jokes WHERE id = ?`.  Favorite rows are untouched. -/
def delete_joke (db : DB) (joke_id : Nat) : DB × Except ApiError Unit :=
  match db.jokes.find? (fun j => j.id == joke_id) with
  | none => (db, .error .notFound)
  | some _ =>
    ({ db with jokes := db.jokes.filter (fun j => !(j.id == joke_id)) }, .ok ())

/-- `POST /jokes/<id>/favorite` (`favorite_joke`).  The boolean result is
whether a row was created (HTTP 201) as opposed to the already-favorited
200 response. -/
def favorite_joke (db : DB) (joke_id : Nat) (user_ip : String) :
    DB × Except ApiError Bool :=
  match db.jokes.find? (fun j => j.id == joke_id) with
  | none => (db, .error .notFound)
  | some _ =>
    match db.favorites.find? (fun f => f.joke_id == joke_id && f.user_ip == user_ip) with
    | some _ => (db, .ok false)
    | none =>
      ({ db with
          favorites := db.favorites ++
            [{ id := db.nextFavId, joke_id := joke_id, user_ip := user_ip,
               created_at := db.now }],
          nextFavId := db.nextFavId + 1 },
       .ok true)

/-- `favorite_joke` iterated `n` times for the same pair (state only). -/
def favIter : DB → Nat → String → Nat → DB
  | db, _, _, 0 => db
  | db, joke_id, user_ip, n + 1 =>
    favIter (favorite_joke db joke_id user_ip).1 joke_id user_ip n

/-- `GET /favorites` (`get_favorites`): favorites of the client, ordered
by favoriting time descending, inner-joined against the jokes table
(joke ids are a primary key, so the join is a lookup). -/
def get_favorites (db : DB) (user_ip : String) : List Joke :=
  ((db.favorites.filter (fun f => f.user_ip == user_ip)).insertionSort
      (fun a b => b.created_at ≤ a.created_at)).filterMap
    (fun f => db.jokes.find? (fun j => j.id == f.joke_id))

/-- ASCII case folding used by SQLite `LIKE` (case-insensitive on ASCII). -/
def likeFold (c : Char) : Char := c.toLower

/-- SQLite `LIKE` pattern matching: `%` matches any sequence, `_` any
single character, all other characters match themselves up to ASCII case. -/
def likeMatch : List Char → List Char → Bool
  | [], s => s.isEmpty
  | c :: p, s =>
    if c = '%' then s.tails.any (fun t => likeMatch p t)
    else
      match s with
      | [] => false
      | d :: s' =>
        if c = '_' then likeMatch p s'
        else (likeFold c == likeFold d) && likeMatch p s'

/-- `LIKE` on strings. -/
def likeString (pat s : String) : Bool := likeMatch pat.data s.data

/-- `GET /search` (`search_jokes`): empty `q` is a 400; otherwise rows
matching `setup LIKE '%q%' OR punchline LIKE '%q%'`. -/
def search_jokes (db : DB) (q : String) : Except ApiError (List Joke) :=
  if q = "" then .error .invalidInput
  else
    .ok (db.jokes.filter (fun j =>
      likeString ("%" ++ q ++ "%") j.setup || likeString ("%" ++ q ++ "%") j.punchline))

/-- Case-insensitive substring containment (the spec-level reading of the
search contract, for comparison with `likeMatch`). -/
def containsCI (q s : String) : Bool :=
  decide ((q.data.map likeFold) <:+: (s.data.map likeFold))

/-- Line 165: `per_page = min(request.args.get('per_page', 10, type=int), 100)`.
The only clamping applied to the requested page size. -/
def effective_per_page (requested : Int) : Int := min requested 100

/-- The sort-field allow-list of `get_all_jokes`. -/
def allowed_sorts : List String := ["rating", "votes", "created_at", "id"]

/-- Sort-field normalization: unrecognized fields fall back to `created_at`. -/
def normalize_sort (s : String) : String :=
  if allowed_sorts.contains s then s else "created_at"

/-- Python's `str.upper()` on the (ASCII) order parameter. -/
def strUpper (s : String) : String := ⟨s.data.map Char.toUpper⟩

/-- Order normalization: upper-case, then fall back to `DESC` when the
result is neither `ASC` nor `DESC`. -/
def normalize_order (o : String) : String :=
  if (["ASC", "DESC"] : List String).contains (strUpper o) then strUpper o else "DESC"

/-- The `WHERE category = ?` filter.  Python's `if category:` skips the
filter both for an absent parameter and for the empty string. -/
def filteredJokes (db : DB) (category : Option String) : List Joke :=
  match category with
  | none => db.jokes
  | some c => if c = "" then db.jokes else db.jokes.filter (fun j => j.category == c)

/-- Comparison on the (already normalized) sort column. -/
def jokeLeB (field : String) (a b : Joke) : Bool :=
  if field = "rating" then a.rating ≤ b.rating
  else if field = "votes" then a.votes ≤ b.votes
  else if field = "id" then a.id ≤ b.id
  else a.created_at ≤ b.created_at

/-- `ORDER BY {field} {order}` on the joke rows. -/
def sortJokes (field order : String) (l : List Joke) : List Joke :=
  if order = "ASC" then l.insertionSort (fun a b => jokeLeB field a b = true)
  else l.insertionSort (fun a b => jokeLeB field b a = true)

/-- SQLite `LIMIT ? OFFSET ?`: a negative offset counts as 0 and a
negative limit means no limit. -/
def sqlLimitOffset (l : List Joke) (limit offset : Int) : List Joke :=
  let l' := l.drop offset.toNat
  if limit < 0 then l' else l'.take limit.toNat

/-- The pagination envelope of the `/jokes` response. -/
structure Pagination where
  page : Int
  per_page : Int
  total : Nat
  pages : Int
deriving Repr, DecidableEq

/-- The `/jokes` response body. -/
structure ListResponse where
  jokes : List Joke
  pagination : Pagination
deriving Repr, DecidableEq

/-- `GET /jokes` (`get_all_jokes`).  `none` models the uncaught
`ZeroDivisionError` raised by `(total + per_page - 1) // per_page` when
the effective page size is 0 (HTTP 500). -/
def get_all_jokes (db : DB) (page per_page : Int) (category : Option String)
    (sort_by order : String) : Option ListResponse :=
  let pp := effective_per_page per_page
  let srt := normalize_sort sort_by
  let ord := normalize_order order
  let filtered := filteredJokes db category
  let total := filtered.length
  let sortedJ := sortJokes srt ord filtered
  let offset := (page - 1) * pp
  let items := sqlLimitOffset sortedJ pp offset
  if pp = 0 then none
  else
    some { jokes := items,
           pagination :=
             { page := page, per_page := pp, total := total,
               pages := Int.fdiv ((total : Int) + pp - 1) pp } }

/-! ## Helper lemmas -/

theorem find?_map_update (l : List Joke) (joke_id : Nat) (g : Joke → Joke)
    (hg : ∀ x, (g x).id = x.id) (j : Joke)
    (h : l.find? (fun x => x.id == joke_id) = some j) :
    (l.map (fun x => if x.id == joke_id then g x else x)).find?
      (fun x => x.id == joke_id) = some (g j) := by
  induction l with
  | nil => simp at h
  | cons a t ih =>
    by_cases ha : (a.id == joke_id) = true
    · rw [List.find?_cons_of_pos (p := fun x : Joke => x.id == joke_id) _ ha] at h
      injection h with h
      subst h
      have hga : ((g a).id == joke_id) = true := by
        have := hg a
        simpa [this] using ha
      simp only [List.map_cons, if_pos ha]
      exact List.find?_cons_of_pos (p := fun x : Joke => x.id == joke_id) _ hga
    · rw [List.find?_cons_of_neg (p := fun x : Joke => x.id == joke_id) _ ha] at h
      simp only [List.map_cons, if_neg ha]
      rw [List.find?_cons_of_neg (p := fun x : Joke => x.id == joke_id) _ ha]
      exact ih h

theorem rate_joke_ok (db : DB) (joke_id : Nat) (r : ℚ) (j : Joke)
    (hr1 : 1 ≤ r) (hr5 : r ≤ 5)
    (h : db.jokes.find? (fun x => x.id == joke_id) = some j) :
    rate_joke db joke_id (some r) =
      ({ db with jokes := db.jokes.map (fun x =>
            if x.id == joke_id then
              { x with
                  rating := (j.rating * (j.votes : ℚ) + r) / ((j.votes + 1 : Nat) : ℚ),
                  votes := j.votes + 1 }
            else x) },
       .ok { j with
               rating := (j.rating * (j.votes : ℚ) + r) / ((j.votes + 1 : Nat) : ℚ),
               votes := j.votes + 1 }) := by
  simp only [rate_joke]
  rw [if_neg (by push_neg; exact ⟨hr1, hr5⟩), h]

/-- Closed form for iterated rating: every row matching the id ends with
the vote count and incremental mean driven by the first matching row. -/
theorem rateMany_closed (rs : List ℚ) : ∀ (db : DB) (joke_id : Nat) (j : Joke),
    db.jokes.find? (fun x => x.id == joke_id) = some j →
    (∀ r ∈ rs, 1 ≤ r ∧ r ≤ 5) → rs ≠ [] →
    rateMany db joke_id rs =
      { db with jokes := db.jokes.map (fun x =>
          if x.id == joke_id then
            { x with
                rating := (j.rating * (j.votes : ℚ) + rs.sum) /
                  ((j.votes : ℚ) + (rs.length : ℚ)),
                votes := j.votes + rs.length }
          else x) } := by
  induction rs with
  | nil => intro _ _ _ _ _ hne; exact absurd rfl hne
  | cons r rs ih =>
    intro db joke_id j hfind hvalid _
    have hr := hvalid r (by simp)
    have hstep := rate_joke_ok db joke_id r j hr.1 hr.2 hfind
    show rateMany (rate_joke db joke_id (some r)).1 joke_id rs = _
    rw [hstep]
    rcases Decidable.em (rs = []) with hrs | hrs
    · subst hrs
      show _ = ({ db with jokes := _ } : DB)
      simp only [rateMany]
      congr 1
      apply List.map_congr_left
      intro x _
      by_cases hx : (x.id == joke_id) = true
      · simp only [if_pos hx]
        congr 1
        · simp only [List.sum_cons, List.sum_nil, List.length_cons, List.length_nil]
          push_cast
          ring
      · simp only [if_neg hx]
    · set g₁ : Joke → Joke := fun x =>
        { x with
            rating := (j.rating * (j.votes : ℚ) + r) / ((j.votes + 1 : Nat) : ℚ),
            votes := j.votes + 1 } with hg₁
      have hfind₁ :
          (db.jokes.map (fun x => if x.id == joke_id then g₁ x else x)).find?
            (fun x => x.id == joke_id) = some (g₁ j) :=
        find?_map_update db.jokes joke_id g₁ (fun _ => rfl) j hfind
      have hvalid' : ∀ s ∈ rs, 1 ≤ s ∧ s ≤ 5 := fun s hs => hvalid s (by simp [hs])
      have := ih { db with
          jokes := db.jokes.map (fun x => if x.id == joke_id then g₁ x else x) }
        joke_id (g₁ j) hfind₁ hvalid' hrs
      rw [this]
      congr 1
      rw [List.map_map]
      apply List.map_congr_left
      intro x _
      by_cases hx : (x.id == joke_id) = true
      · simp only [Function.comp_apply, if_pos hx, hg₁]
        have hne1 : ((j.votes : ℚ) + 1) ≠ 0 := by positivity
        congr 1
        · simp only [List.sum_cons, List.length_cons]
          push_cast
          rw [div_mul_cancel₀ _ hne1]
          ring
        · simp only [List.length_cons]
          omega
      · simp only [Function.comp_apply, if_neg hx, if_neg hx]

/-! ## Sample database for witnesses and counterexamples -/

/-- A fresh sample joke (rating 0.0, votes 0), as created by `add_joke`. -/
def sampleJoke1 : Joke :=
  { id := 1, setup := "Why abc", punchline := "Because xyz!",
    category := "programming", rating := 0, votes := 0,
    created_at := 1, updated_at := 1 }

/-- A second sample joke in another category. -/
def sampleJoke2 : Joke :=
  { id := 2, setup := "Second setup", punchline := "Second punchline",
    category := "general", rating := 0, votes := 0,
    created_at := 2, updated_at := 2 }

/-- A small concrete database state. -/
def sampleDB : DB :=
  { jokes := [sampleJoke1, sampleJoke2],
    categories := [⟨1, "programming", "p"⟩, ⟨2, "general", "g"⟩],
    favorites := [], nextJokeId := 3, nextFavId := 1, now := 10 }

/-! ## C1: incremental rating aggregation computes the arithmetic mean -/

/-- C1: starting from a joke with rating 0.0 and votes 0, after `n`
successful `rate_joke` calls with ratings `rs` (each in `[1,5]`, each
performing `newVotes = oldVotes + 1`,
`newRating = (oldRating * oldVotes + rating) / newVotes`), the joke's
vote count is `n` and its rating is the arithmetic mean of `rs`, and the
resulting state is independent of the submission order. -/
theorem rateMany_fresh_mean (db : DB) (joke_id : Nat) (j : Joke) (rs : List ℚ)
    (hfind : db.jokes.find? (fun x => x.id == joke_id) = some j)
    (hrate : j.rating = 0) (hvotes : j.votes = 0)
    (hrs : ∀ r ∈ rs, 1 ≤ r ∧ r ≤ 5) (hne : rs ≠ []) :
    ((rateMany db joke_id rs).jokes.find? (fun x => x.id == joke_id) =
      some { j with rating := rs.sum / (rs.length : ℚ), votes := rs.length }) ∧
    ∀ rs', rs.Perm rs' → rateMany db joke_id rs' = rateMany db joke_id rs := by
  have hclosed := rateMany_closed rs db joke_id j hfind hrs hne
  constructor
  · rw [hclosed]
    have hfm := find?_map_update db.jokes joke_id
      (fun x =>
        { x with
            rating := (j.rating * (j.votes : ℚ) + rs.sum) /
              ((j.votes : ℚ) + (rs.length : ℚ)),
            votes := j.votes + rs.length })
      (fun _ => rfl) j hfind
    refine hfm.trans ?_
    congr 1
    simp [hrate, hvotes]
  · intro rs' hperm
    have hne' : rs' ≠ [] := fun h => hne (List.Perm.eq_nil (h ▸ hperm))
    have hrs' : ∀ r ∈ rs', 1 ≤ r ∧ r ≤ 5 := fun r hr =>
      hrs r (hperm.mem_iff.mpr hr)
    rw [rateMany_closed rs' db joke_id j hfind hrs' hne', hclosed,
      hperm.sum_eq, hperm.length_eq]

/-- Witness for C1 at a concrete fresh joke and ratings `[2, 4]`. -/
theorem rateMany_fresh_mean_witness :
    (sampleDB.jokes.find? (fun x => x.id == 1) = some sampleJoke1) ∧
    (sampleJoke1.rating = 0) ∧ (sampleJoke1.votes = 0) ∧
    (((rateMany sampleDB 1 [2, 4]).jokes.find? (fun x => x.id == 1) =
        some { sampleJoke1 with
                 rating := ([(2 : ℚ), 4].sum) / (([(2 : ℚ), 4].length : Nat) : ℚ),
                 votes := [(2 : ℚ), 4].length }) ∧
      ∀ rs', [(2 : ℚ), 4].Perm rs' →
        rateMany sampleDB 1 rs' = rateMany sampleDB 1 [2, 4]) :=
  ⟨rfl, rfl, rfl,
    rateMany_fresh_mean sampleDB 1 sampleJoke1 [2, 4] rfl rfl rfl
      (by
        intro r hr
        simp only [List.mem_cons, List.not_mem_nil, or_false] at hr
        rcases hr with rfl | rfl <;> norm_num)
      (by simp)⟩

/-! ## C6: rating validation -/

/-- C6: a missing/non-numeric rating or one outside `[1,5]` fails with
`InvalidInput` and leaves the database (hence the joke's `votes` and
`rating`) unchanged; a valid rating for a nonexistent joke id fails with
`NotFound` and changes no state. -/
theorem rate_joke_validation (db : DB) (joke_id : Nat) (ro : Option ℚ) :
    ((ro = none ∨ ∃ r, ro = some r ∧ (r < 1 ∨ 5 < r)) →
      rate_joke db joke_id ro = (db, .error .invalidInput)) ∧
    (∀ r, ro = some r → 1 ≤ r → r ≤ 5 →
      db.jokes.find? (fun x => x.id == joke_id) = none →
      rate_joke db joke_id ro = (db, .error .notFound)) := by
  constructor
  · rintro (rfl | ⟨r, rfl, hbad⟩)
    · rfl
    · simp only [rate_joke]
      rw [if_pos hbad]
  · rintro r rfl h1 h5 hnone
    simp only [rate_joke]
    rw [if_neg (by push_neg; exact ⟨h1, h5⟩), hnone]

/-- Witness for C6: rating `0` is rejected with state unchanged, and a
valid rating for the absent id `99` yields `NotFound`. -/
theorem rate_joke_validation_witness :
    (rate_joke sampleDB 1 (some 0) = (sampleDB, .error .invalidInput)) ∧
    (sampleDB.jokes.find? (fun x => x.id == 99) = none) ∧
    (rate_joke sampleDB 99 (some 3) = (sampleDB, .error .notFound)) :=
  ⟨(rate_joke_validation sampleDB 1 (some 0)).1
      (Or.inr ⟨0, rfl, Or.inl (by norm_num)⟩),
   rfl,
   (rate_joke_validation sampleDB 99 (some 3)).2 3 rfl (by norm_num)
      (by norm_num) rfl⟩

/-! ## C9: frame condition of a successful rating -/

/-- `Forall₂` between a list and its map when the relation holds
pointwise along the map. -/
theorem forall₂_map_self {R : Joke → Joke → Prop} (f : Joke → Joke) :
    ∀ l : List Joke, (∀ x ∈ l, R x (f x)) → List.Forall₂ R l (l.map f)
  | [], _ => List.Forall₂.nil
  | a :: t, h =>
    List.Forall₂.cons (h a (by simp))
      (forall₂_map_self f t (fun x hx => h x (by simp [hx])))

/-- C9: a successful `rate_joke` changes only the `votes` and `rating`
fields of rows with the targeted id: every row keeps its `id`, `setup`,
`punchline`, `category`, `created_at` and `updated_at`, rows with other
ids are untouched, and the categories and favorites tables and counters
are unchanged. -/
theorem rate_joke_frame (db : DB) (joke_id : Nat) (r : ℚ) (db' : DB) (jr : Joke)
    (h : rate_joke db joke_id (some r) = (db', .ok jr)) :
    db'.categories = db.categories ∧ db'.favorites = db.favorites ∧
    db'.nextJokeId = db.nextJokeId ∧ db'.nextFavId = db.nextFavId ∧
    db'.now = db.now ∧
    List.Forall₂ (fun o n => n.id = o.id ∧ n.setup = o.setup ∧
      n.punchline = o.punchline ∧ n.category = o.category ∧
      n.created_at = o.created_at ∧ n.updated_at = o.updated_at ∧
      (o.id ≠ joke_id → n = o)) db.jokes db'.jokes := by
  simp only [rate_joke] at h
  split at h
  · exact absurd (congrArg Prod.snd h) (by simp)
  · split at h
    · exact absurd (congrArg Prod.snd h) (by simp)
    · rw [Prod.mk.injEq] at h
      obtain ⟨hdb, -⟩ := h
      subst hdb
      refine ⟨rfl, rfl, rfl, rfl, rfl, ?_⟩
      apply forall₂_map_self
      intro x _
      by_cases hx : (x.id == joke_id) = true
      · have hxid : x.id = joke_id := by simpa using hx
        rw [if_pos hx]
        exact ⟨rfl, rfl, rfl, rfl, rfl, rfl, fun hne => absurd hxid hne⟩
      · rw [if_neg hx]
        exact ⟨rfl, rfl, rfl, rfl, rfl, rfl, fun _ => rfl⟩

/-- Witness for C9 at a concrete successful rating call. -/
theorem rate_joke_frame_witness :
    (rate_joke sampleDB 1 (some 3) =
      ({ sampleDB with jokes := sampleDB.jokes.map (fun x =>
            if x.id == 1 then
              { x with
                  rating := (sampleJoke1.rating * (sampleJoke1.votes : ℚ) + 3) /
                    ((sampleJoke1.votes + 1 : Nat) : ℚ),
                  votes := sampleJoke1.votes + 1 }
            else x) },
       .ok { sampleJoke1 with
               rating := (sampleJoke1.rating * (sampleJoke1.votes : ℚ) + 3) /
                 ((sampleJoke1.votes + 1 : Nat) : ℚ),
               votes := sampleJoke1.votes + 1 })) ∧
    (let db' := (rate_joke sampleDB 1 (some 3)).1
     db'.categories = sampleDB.categories ∧ db'.favorites = sampleDB.favorites) := by
  have hstep := rate_joke_ok sampleDB 1 3 sampleJoke1 (by norm_num) (by norm_num) rfl
  refine ⟨hstep, ?_⟩
  have hframe := rate_joke_frame sampleDB 1 3 _ _ hstep
  exact ⟨hframe.1, hframe.2.1⟩

/-! ## C5: favorite idempotence -/

/-- Counting join results: an entry with the target id appears once per
favorite row whose `joke_id` is the target and whose joke lookup succeeds. -/
theorem countP_filterMap_join (jokes : List Joke) (joke_id : Nat)
    (l : List Favorite) :
    ((l.filterMap (fun f => jokes.find? (fun j => j.id == f.joke_id))).countP
      (fun e => e.id == joke_id)) =
    l.countP (fun f =>
      (f.joke_id == joke_id) && (jokes.find? (fun j => j.id == f.joke_id)).isSome) := by
  induction l with
  | nil => rfl
  | cons f t ih =>
    rcases hf : jokes.find? (fun j => j.id == f.joke_id) with _ | e
    · simp only [List.filterMap_cons, hf, List.countP_cons, Option.isSome_none,
        Bool.and_false, ih]
      simp
    · have he : e.id = f.joke_id := by simpa using List.find?_some hf
      simp only [List.filterMap_cons, hf, List.countP_cons, Option.isSome_some,
        Bool.and_true, ih, he]

/-- C5: for an existing joke and a pair not yet favorited, the first
`favorite_joke` call returns `created = true` and inserts the row, a
second call returns `created = false` and performs no write, the client's
favorite listing contains exactly one entry for that joke, and any number
of further calls leaves the state fixed. -/
theorem favorite_joke_idempotent (db : DB) (joke_id : Nat) (client : String)
    (j : Joke)
    (hj : db.jokes.find? (fun x => x.id == joke_id) = some j)
    (hnot : db.favorites.find?
      (fun f => f.joke_id == joke_id && f.user_ip == client) = none) :
    ∃ db₁ : DB,
      favorite_joke db joke_id client = (db₁, .ok true) ∧
      favorite_joke db₁ joke_id client = (db₁, .ok false) ∧
      (get_favorites db₁ client).countP (fun e => e.id == joke_id) = 1 ∧
      ∀ n, favIter db₁ joke_id client n = db₁ := by
  set fav : Favorite :=
    { id := db.nextFavId, joke_id := joke_id, user_ip := client,
      created_at := db.now } with hfav
  set db₁ : DB :=
    { db with favorites := db.favorites ++ [fav], nextFavId := db.nextFavId + 1 }
    with hdb₁
  have hfavpred : (fav.joke_id == joke_id && fav.user_ip == client) = true := by
    simp [hfav]
  have h1 : favorite_joke db joke_id client = (db₁, .ok true) := by
    simp only [favorite_joke, hj, hnot]
  have h2 : favorite_joke db₁ joke_id client = (db₁, .ok false) := by
    have hjokes : db₁.jokes = db.jokes := rfl
    have hfind2 : db₁.favorites.find?
        (fun f => f.joke_id == joke_id && f.user_ip == client) = some fav := by
      show (db.favorites ++ [fav]).find? _ = some fav
      rw [List.find?_append, hnot]
      simp [hfavpred]
    simp only [favorite_joke, hjokes, hj, hfind2]
  have h3 : (get_favorites db₁ client).countP (fun e => e.id == joke_id) = 1 := by
    unfold get_favorites
    have hperm := (List.perm_insertionSort
      (fun a b : Favorite => b.created_at ≤ a.created_at)
      (db₁.favorites.filter (fun f => f.user_ip == client))).filterMap
      (fun f => db₁.jokes.find? (fun j => j.id == f.joke_id))
    rw [hperm.countP_eq, countP_filterMap_join]
    have hfilter : db₁.favorites.filter (fun f => f.user_ip == client) =
        db.favorites.filter (fun f => f.user_ip == client) ++ [fav] := by
      show (db.favorites ++ [fav]).filter _ = _
      rw [List.filter_append]
      simp [hfav]
    rw [hfilter, List.countP_append]
    have hzero : (db.favorites.filter (fun f => f.user_ip == client)).countP
        (fun f => (f.joke_id == joke_id) &&
          (db₁.jokes.find? (fun j => j.id == f.joke_id)).isSome) = 0 := by
      rw [List.countP_eq_zero]
      intro f hfmem
      obtain ⟨hfin, hfip⟩ := List.mem_filter.mp hfmem
      have hno := List.find?_eq_none.mp hnot f hfin
      simp only [hfip, Bool.and_true] at hno
      simp [hno]
    rw [hzero]
    have hfound : db₁.jokes.find? (fun j => j.id == fav.joke_id) = some j := hj
    simp [List.countP_cons, hfound]
  refine ⟨db₁, h1, h2, h3, ?_⟩
  intro n
  induction n with
  | zero => rfl
  | succ n ih =>
    show favIter (favorite_joke db₁ joke_id client).1 joke_id client n = db₁
    rw [h2]
    exact ih

/-- Witness for C5 on the sample database. -/
theorem favorite_joke_idempotent_witness :
    (sampleDB.jokes.find? (fun x => x.id == 1) = some sampleJoke1) ∧
    (sampleDB.favorites.find?
      (fun f => f.joke_id == 1 && f.user_ip == "client-a") = none) ∧
    ∃ db₁ : DB,
      favorite_joke sampleDB 1 "client-a" = (db₁, .ok true) ∧
      favorite_joke db₁ 1 "client-a" = (db₁, .ok false) ∧
      (get_favorites db₁ "client-a").countP (fun e => e.id == 1) = 1 ∧
      ∀ n, favIter db₁ 1 "client-a" n = db₁ :=
  ⟨rfl, rfl, favorite_joke_idempotent sampleDB 1 "client-a" sampleJoke1 rfl rfl⟩

/-! ## C7: category guard on insert -/

/-- C7: inserting a joke whose category names no existing `Category`
fails with `InvalidInput` and the whole database — in particular the
joke count and every existing record — is unchanged (no partial state). -/
theorem add_joke_unknown_category (db : DB) (s p c : String)
    (hc : db.categories.find? (fun cat => cat.name == c) = none) :
    add_joke db (some s) (some p) (some c) = (db, .error .invalidInput) ∧
    ((add_joke db (some s) (some p) (some c)).1).jokes.length =
      db.jokes.length := by
  have h : add_joke db (some s) (some p) (some c) = (db, .error .invalidInput) := by
    simp only [add_joke, Option.getD_some, hc]
  exact ⟨h, by rw [h]⟩

/-- Witness for C7: inserting into category `"nonexistent"` is rejected
with the sample database unchanged. -/
theorem add_joke_unknown_category_witness :
    (sampleDB.categories.find? (fun cat => cat.name == "nonexistent") = none) ∧
    (add_joke sampleDB (some "s") (some "p") (some "nonexistent") =
      (sampleDB, .error .invalidInput)) ∧
    ((add_joke sampleDB (some "s") (some "p") (some "nonexistent")).1).jokes.length =
      sampleDB.jokes.length :=
  ⟨rfl,
   (add_joke_unknown_category sampleDB "s" "p" "nonexistent" rfl).1,
   (add_joke_unknown_category sampleDB "s" "p" "nonexistent" rfl).2⟩

/-! ## C10: favorite listings only show existing jokes -/

/-- C10: after a successful `delete_joke`, the favorite rows are not
deleted, yet no client's favorite listing contains the deleted id — the
listing's inner join returns only jokes present in the catalog. -/
theorem delete_joke_favorites (db : DB) (joke_id : Nat) (db' : DB)
    (h : delete_joke db joke_id = (db', .ok ())) :
    db'.favorites = db.favorites ∧
    (∀ client, ∀ e ∈ get_favorites db' client, e.id ≠ joke_id) ∧
    (∀ client, ∀ e ∈ get_favorites db' client, e ∈ db'.jokes) := by
  simp only [delete_joke] at h
  split at h
  · exact absurd (congrArg Prod.snd h) (by simp)
  · rw [Prod.mk.injEq] at h
    obtain ⟨hdb, -⟩ := h
    subst hdb
    refine ⟨rfl, ?_, ?_⟩
    · intro client e he
      simp only [get_favorites, List.mem_filterMap] at he
      obtain ⟨f, -, hfind⟩ := he
      have hmem := List.mem_of_find?_eq_some hfind
      have h2 := (List.mem_filter.mp hmem).2
      simp only [Bool.not_eq_eq_eq_not, Bool.not_true, beq_eq_false_iff_ne,
        ne_eq] at h2
      exact h2
    · intro client e he
      simp only [get_favorites, List.mem_filterMap] at he
      obtain ⟨f, -, hfind⟩ := he
      exact List.mem_of_find?_eq_some hfind

/-- Witness for C10: deleting joke 2 from the sample database. -/
theorem delete_joke_favorites_witness :
    (delete_joke sampleDB 2 =
      ({ sampleDB with jokes := [sampleJoke1] }, .ok ())) ∧
    (({ sampleDB with jokes := [sampleJoke1] } : DB).favorites =
      sampleDB.favorites ∧
     (∀ client, ∀ e ∈ get_favorites { sampleDB with jokes := [sampleJoke1] } client,
        e.id ≠ 2) ∧
     (∀ client, ∀ e ∈ get_favorites { sampleDB with jokes := [sampleJoke1] } client,
        e ∈ ({ sampleDB with jokes := [sampleJoke1] } : DB).jokes)) :=
  ⟨rfl, delete_joke_favorites sampleDB 2 _ rfl⟩

/-! ## C2/C3/C4: listing, pagination, clamping, sort fallback -/

theorem sortJokes_length (field ord : String) (l : List Joke) :
    (sortJokes field ord l).length = l.length := by
  unfold sortJokes
  split <;> exact (List.perm_insertionSort _ _).length_eq

theorem sortJokes_perm (field ord : String) (l : List Joke) :
    (sortJokes field ord l).Perm l := by
  unfold sortJokes
  split <;> exact List.perm_insertionSort _ _

theorem range_flatMap_chunk (l : List Joke) (sz : Nat) :
    ∀ k : Nat, (List.range k).flatMap (fun i => (l.drop (i * sz)).take sz) =
      l.take (k * sz) := by
  intro k
  induction k with
  | zero => simp
  | succ k ih =>
    rw [List.range_succ, List.flatMap_append, ih]
    simp only [List.flatMap_cons, List.flatMap_nil, List.append_nil]
    rw [Nat.succ_mul, List.take_add]

theorem numPages_mul_ge (n sz : Nat) (hsz : 1 ≤ sz) :
    n ≤ ((n + sz - 1) / sz) * sz := by
  rcases Nat.eq_zero_or_pos n with h0 | hpos
  · rw [h0]
    exact Nat.zero_le _
  · obtain ⟨m, rfl⟩ : ∃ m, n = m + 1 := ⟨n - 1, by omega⟩
    have harith : m + 1 + sz - 1 = m + sz := by omega
    rw [harith, Nat.add_div_right m (by omega : 0 < sz)]
    have hdm := Nat.div_add_mod m sz
    have hml : m % sz < sz := Nat.mod_lt m (by omega)
    have hmul : (m / sz + 1) * sz = sz * (m / sz) + sz := by ring
    rw [hmul]
    linarith [hdm, hml]

theorem range_flatMap_take (l : List Joke) (sz : Nat) (hsz : 1 ≤ sz) :
    (List.range ((l.length + sz - 1) / sz)).flatMap
      (fun i => (l.drop (i * sz)).take sz) = l := by
  rw [range_flatMap_chunk]
  exact List.take_of_length_le (numPages_mul_ge l.length sz hsz)

theorem fdiv_ceil_eq (n : Nat) (sz : Int) (h1 : 1 ≤ sz) :
    ((n : Int) + sz - 1).fdiv sz = ((n + sz.toNat - 1) / sz.toNat : Nat) := by
  obtain ⟨s, rfl⟩ : ∃ s : Nat, sz = (s : Nat) :=
    ⟨sz.toNat, (Int.toNat_of_nonneg (by omega)).symm⟩
  have hs : 1 ≤ s := by exact_mod_cast h1
  rw [Int.fdiv_eq_ediv _ (by positivity)]
  have hcast : (n : Int) + (s : Int) - 1 = ((n + s - 1 : Nat) : Int) := by
    omega
  rw [hcast, Int.toNat_ofNat]
  exact (Int.ofNat_ediv (n + s - 1) s).symm

/-- C2: with page size in `[1,100]`, `get_all_jokes` pages the sorted
filtered sequence at offset `(page - 1) * size`, reports `total` as the
size of the category-filtered set before pagination, returns an empty
page (not an error) past the end of the data, and concatenating all
`ceil(total / size)` pages in order reproduces the sorted filtered
sequence, which is a permutation of the filtered set (each item exactly
once, page lengths summing to `total`). -/
theorem get_all_jokes_pagination (db : DB) (category : Option String)
    (srt ord : String) (sz : Int) (h1 : 1 ≤ sz) (h2 : sz ≤ 100) :
    (∀ page : Int, 1 ≤ page →
      get_all_jokes db page sz category srt ord =
        some { jokes := ((sortJokes (normalize_sort srt) (normalize_order ord)
                  (filteredJokes db category)).drop (((page - 1) * sz).toNat)).take
                  sz.toNat,
               pagination :=
                 { page := page, per_page := sz,
                   total := (filteredJokes db category).length,
                   pages := (((filteredJokes db category).length : Int) + sz -
                     1).fdiv sz } }) ∧
    (∀ page : Int, 1 ≤ page →
      ((filteredJokes db category).length : Int) ≤ (page - 1) * sz →
      get_all_jokes db page sz category srt ord =
        some { jokes := [],
               pagination :=
                 { page := page, per_page := sz,
                   total := (filteredJokes db category).length,
                   pages := (((filteredJokes db category).length : Int) + sz -
                     1).fdiv sz } }) ∧
    ((List.range (((filteredJokes db category).length + sz.toNat - 1) /
          sz.toNat)).flatMap
        (fun i => ((sortJokes (normalize_sort srt) (normalize_order ord)
            (filteredJokes db category)).drop (i * sz.toNat)).take sz.toNat) =
      sortJokes (normalize_sort srt) (normalize_order ord)
        (filteredJokes db category)) ∧
    (sortJokes (normalize_sort srt) (normalize_order ord)
        (filteredJokes db category)).Perm (filteredJokes db category) ∧
    (((filteredJokes db category).length : Int) + sz - 1).fdiv sz =
      ((((filteredJokes db category).length + sz.toNat - 1) / sz.toNat : Nat) :
        Int) := by
  have hpp : effective_per_page sz = sz := min_eq_left h2
  have hsz0 : ¬ sz = 0 := by omega
  have hszneg : ¬ sz < 0 := by omega
  have hmain : ∀ page : Int, 1 ≤ page →
      get_all_jokes db page sz category srt ord =
        some { jokes := ((sortJokes (normalize_sort srt) (normalize_order ord)
                  (filteredJokes db category)).drop (((page - 1) * sz).toNat)).take
                  sz.toNat,
               pagination :=
                 { page := page, per_page := sz,
                   total := (filteredJokes db category).length,
                   pages := (((filteredJokes db category).length : Int) + sz -
                     1).fdiv sz } } := by
    intro page _
    simp only [get_all_jokes, sqlLimitOffset, hpp, if_neg hsz0, if_neg hszneg]
  refine ⟨hmain, ?_, ?_, sortJokes_perm _ _ _, fdiv_ceil_eq _ sz h1⟩
  · intro page hpage hbeyond
    rw [hmain page hpage]
    have hlen : (sortJokes (normalize_sort srt) (normalize_order ord)
        (filteredJokes db category)).length ≤ ((page - 1) * sz).toNat := by
      rw [sortJokes_length]
      rw [Int.le_toNat (mul_nonneg (by omega) (by omega))]
      exact hbeyond
    rw [List.drop_eq_nil_of_le hlen, List.take_nil]
  · have hsn : 1 ≤ sz.toNat := by omega
    have := range_flatMap_take (sortJokes (normalize_sort srt)
      (normalize_order ord) (filteredJokes db category)) sz.toNat hsn
    rwa [sortJokes_length] at this

/-- Witness for C2 at size 2 on the sample database: the in-range page 1
and the beyond-the-data page 99. -/
theorem get_all_jokes_pagination_witness :
    ((1 : Int) ≤ 2) ∧ ((2 : Int) ≤ 100) ∧
    (get_all_jokes sampleDB 1 2 none "id" "asc" =
      some { jokes := ((sortJokes (normalize_sort "id") (normalize_order "asc")
                (filteredJokes sampleDB none)).drop ((((1 : Int) - 1) * 2).toNat)).take
                (2 : Int).toNat,
             pagination :=
               { page := 1, per_page := 2,
                 total := (filteredJokes sampleDB none).length,
                 pages := (((filteredJokes sampleDB none).length : Int) + 2 -
                   1).fdiv 2 } }) ∧
    (get_all_jokes sampleDB 99 2 none "id" "asc" =
      some { jokes := [],
             pagination :=
               { page := 99, per_page := 2,
                 total := (filteredJokes sampleDB none).length,
                 pages := (((filteredJokes sampleDB none).length : Int) + 2 -
                   1).fdiv 2 } }) :=
  ⟨by norm_num, by norm_num,
   (get_all_jokes_pagination sampleDB none "id" "asc" 2 (by norm_num)
      (by norm_num)).1 1 (by norm_num),
   (get_all_jokes_pagination sampleDB none "id" "asc" 2 (by norm_num)
      (by norm_num)).2.1 99 (by norm_num) (by decide)⟩

/-- C3 counterexample: the code only caps the requested page size from
above (`min(per_page, 100)`); a requested size of 0 is not raised to 1 —
it stays 0 and the request fails (uncaught division by zero, an error
response), and a negative size passes through unchanged. -/
theorem per_page_no_lower_clamp :
    effective_per_page 0 = 0 ∧ effective_per_page (-5) = -5 ∧
    get_all_jokes sampleDB 1 0 none "created_at" "desc" = none :=
  ⟨rfl, by decide, rfl⟩

/-- C3 amended: the effective page size is `min(requested, 100)`: values
above 100 are silently capped to 100 (and the capped listing succeeds),
while values of 100 or below — including 0 and negatives — pass through
without any lower clamp. -/
theorem per_page_cap_only (db : DB) (page r : Int) (cat : Option String)
    (srt ord : String) :
    effective_per_page r = min r 100 ∧
    (r ≤ 100 → effective_per_page r = r) ∧
    (100 < r →
      get_all_jokes db page r cat srt ord =
        get_all_jokes db page 100 cat srt ord ∧
      (get_all_jokes db page r cat srt ord).isSome = true) := by
  refine ⟨rfl, fun h => min_eq_left h, fun h => ?_⟩
  have hr : effective_per_page r = 100 := min_eq_right (le_of_lt h)
  have h100 : effective_per_page 100 = 100 := rfl
  constructor
  · simp only [get_all_jokes, hr, h100]
  · simp only [get_all_jokes, hr]
    rw [if_neg (by norm_num : ¬(100 : Int) = 0)]
    rfl

/-- Witness for C3's amended claim at requested sizes 7 and 150. -/
theorem per_page_cap_only_witness :
    ((7 : Int) ≤ 100 ∧ effective_per_page 7 = 7) ∧
    ((100 : Int) < 150 ∧
      get_all_jokes sampleDB 1 150 none "id" "asc" =
        get_all_jokes sampleDB 1 100 none "id" "asc") :=
  ⟨⟨by norm_num, (per_page_cap_only sampleDB 1 7 none "id" "asc").2.1 (by norm_num)⟩,
   ⟨by norm_num,
    ((per_page_cap_only sampleDB 1 150 none "id" "asc").2.2 (by norm_num)).1⟩⟩

/-- C4: an unrecognized `sort` field behaves exactly as `created_at`,
and an unrecognized `order` (after upper-casing) behaves exactly as
`desc`; neither is an error. -/
theorem get_all_jokes_fallback (db : DB) (page sz : Int) (cat : Option String)
    (srt ord : String) :
    (allowed_sorts.contains srt = false →
      get_all_jokes db page sz cat srt ord =
        get_all_jokes db page sz cat "created_at" ord) ∧
    ((["ASC", "DESC"] : List String).contains (strUpper ord) = false →
      get_all_jokes db page sz cat srt ord =
        get_all_jokes db page sz cat srt "desc") := by
  constructor
  · intro h
    have hn : normalize_sort srt = "created_at" := by
      unfold normalize_sort
      rw [if_neg (by rw [h]; simp)]
    have hc : normalize_sort "created_at" = "created_at" := rfl
    simp only [get_all_jokes, hn, hc]
  · intro h
    have hn : normalize_order ord = "DESC" := by
      unfold normalize_order
      rw [if_neg (by rw [h]; simp)]
    have hc : normalize_order "desc" = "DESC" := rfl
    simp only [get_all_jokes, hn, hc]

/-- Witness for C4 with the unrecognized values `"nonsense"`/`"bogus"`. -/
theorem get_all_jokes_fallback_witness :
    (allowed_sorts.contains "nonsense" = false) ∧
    (get_all_jokes sampleDB 1 10 none "nonsense" "desc" =
      get_all_jokes sampleDB 1 10 none "created_at" "desc") ∧
    ((["ASC", "DESC"] : List String).contains (strUpper "bogus") = false) ∧
    (get_all_jokes sampleDB 1 10 none "created_at" "bogus" =
      get_all_jokes sampleDB 1 10 none "created_at" "desc") :=
  ⟨by decide,
   (get_all_jokes_fallback sampleDB 1 10 none "nonsense" "desc").1 (by decide),
   by decide,
   (get_all_jokes_fallback sampleDB 1 10 none "created_at" "bogus").2 (by decide)⟩

/-! ## C8: substring search via SQL LIKE -/

theorem likeMatch_just_percent (s : List Char) : likeMatch ['%'] s = true := by
  simp only [likeMatch]
  rw [if_pos trivial, List.any_eq_true]
  exact ⟨[], (List.mem_tails _ _).mpr (List.nil_suffix (l := s)), rfl⟩

/-- A wildcard-free pattern followed by `%` matches exactly the strings
it is a case-folded initial segment of. -/
theorem likeMatch_plain_iff (q : List Char) (hq : ∀ c ∈ q, c ≠ '%' ∧ c ≠ '_') :
    ∀ s : List Char,
      (likeMatch (q ++ ['%']) s = true ↔ (q.map likeFold) <+: (s.map likeFold)) := by
  induction q with
  | nil =>
    intro s
    simp only [List.nil_append, List.map_nil]
    rw [likeMatch_just_percent]
    simp [ List.nil_prefix]
  | cons c q ih =>
    intro s
    have hc := hq c (by simp)
    have hq' : ∀ d ∈ q, d ≠ '%' ∧ d ≠ '_' := fun d hd => hq d (by simp [hd])
    cases s with
    | nil =>
      simp only [List.cons_append, likeMatch]
      rw [if_neg hc.1]
      simp
    | cons d s =>
      simp only [List.cons_append, likeMatch]
      rw [if_neg hc.1, if_neg hc.2]
      simp only [List.map_cons, List.cons_prefix_cons, Bool.and_eq_true,
        beq_iff_eq]
      exact and_congr Iff.rfl (ih hq' s)

/-- A pattern headed by `%` matches a string iff its remainder matches
some suffix. -/
theorem likeMatch_percent_iff (p : List Char) (s : List Char) :
    likeMatch ('%' :: p) s = true ↔ ∃ t, t <:+ s ∧ likeMatch p t = true := by
  simp only [likeMatch]
  rw [if_pos trivial, List.any_eq_true]
  constructor
  · rintro ⟨t, ht, hm⟩
    exact ⟨t, (List.mem_tails _ _).mp ht, hm⟩
  · rintro ⟨t, ht, hm⟩
    exact ⟨t, (List.mem_tails _ _).mpr ht, hm⟩

/-- A suffix of a mapped list is the image of a suffix. -/
theorem suffix_map_exists {t' s : List Char}
    (h : t' <:+ s.map likeFold) : ∃ u, u <:+ s ∧ u.map likeFold = t' := by
  obtain ⟨pre, hpre⟩ := h
  obtain ⟨s₁, s₂, hs, h1, h2⟩ := List.map_eq_append_iff.mp hpre.symm
  exact ⟨s₂, ⟨s₁, hs.symm⟩, h2⟩

/-- The `'%q%'` pattern for wildcard-free `q` is exactly case-folded
substring containment. -/
theorem likeMatch_substring (q s : List Char)
    (hq : ∀ c ∈ q, c ≠ '%' ∧ c ≠ '_') :
    likeMatch ('%' :: (q ++ ['%'])) s = true ↔
      (q.map likeFold) <:+: (s.map likeFold) := by
  rw [likeMatch_percent_iff]
  constructor
  · rintro ⟨t, hts, hm⟩
    have hp := (likeMatch_plain_iff q hq t).mp hm
    exact List.infix_iff_prefix_suffix.mpr ⟨t.map likeFold, hp, hts.map likeFold⟩
  · intro hinf
    obtain ⟨t', hp, hsuf⟩ := List.infix_iff_prefix_suffix.mp hinf
    obtain ⟨u, hu, hmap⟩ := suffix_map_exists hsuf
    exact ⟨u, hu, (likeMatch_plain_iff q hq u).mpr (hmap ▸ hp)⟩

/-- C8 amended: `searchJokes("")` fails with `InvalidInput`, and for a
non-empty query containing no SQL LIKE metacharacter (`%` or `_`) the
result is exactly the jokes whose setup or punchline contains the query
as an ASCII-case-insensitive substring, across all categories and
without pagination.  (For queries containing `%` or `_` the source
treats them as LIKE wildcards — see the counterexample.) -/
theorem search_jokes_substring (db : DB) (q : String) :
    (search_jokes db "" = .error .invalidInput) ∧
    (q ≠ "" → (∀ c ∈ q.data, c ≠ '%' ∧ c ≠ '_') →
      search_jokes db q =
        .ok (db.jokes.filter (fun j =>
          containsCI q j.setup || containsCI q j.punchline))) := by
  refine ⟨rfl, fun hne hw => ?_⟩
  unfold search_jokes
  rw [if_neg hne]
  congr 1
  apply List.filter_congr
  intro j _
  have hdata : ("%" ++ q ++ "%").data = '%' :: (q.data ++ ['%']) := by
    simp [String.data_append]
  have hs : ∀ s : String, likeString ("%" ++ q ++ "%") s = containsCI q s := by
    intro s
    unfold likeString containsCI
    rw [hdata, Bool.eq_iff_iff, likeMatch_substring q.data s.data hw]
    simp
  rw [hs j.setup, hs j.punchline]

/-- C8 counterexample: `searchJokes("%")` returns every joke — here both
sample jokes — even though neither setup nor punchline contains `"%"` as
a substring under any case rule, because the query is spliced into a SQL
LIKE pattern where `%` is a wildcard. -/
theorem search_jokes_wildcard :
    search_jokes sampleDB "%" = .ok [sampleJoke1, sampleJoke2] ∧
    containsCI "%" sampleJoke1.setup = false ∧
    containsCI "%" sampleJoke1.punchline = false ∧
    containsCI "%" sampleJoke2.setup = false ∧
    containsCI "%" sampleJoke2.punchline = false ∧
    decide ("%".data <:+: sampleJoke1.setup.data) = false :=
  ⟨rfl, by decide, by decide, by decide, by decide, by decide⟩

/-- Witness for C8's amended claim at the wildcard-free query `"abc"`. -/
theorem search_jokes_substring_witness :
    (search_jokes sampleDB "" = .error .invalidInput) ∧
    ("abc" ≠ "") ∧ (∀ c ∈ "abc".data, c ≠ '%' ∧ c ≠ '_') ∧
    (search_jokes sampleDB "abc" =
      .ok (sampleDB.jokes.filter (fun j =>
        containsCI "abc" j.setup || containsCI "abc" j.punchline))) :=
  ⟨(search_jokes_substring sampleDB "abc").1, by decide, by decide,
   (search_jokes_substring sampleDB "abc").2 (by decide) (by decide)⟩

end JokesApi
